import Mathlib

/-!
Shallow embedding of the date-picker repository's date arithmetic and
selection-state logic, together with theorems settling the frozen claims.

The repository has three components:
* `DatePickerBase` (single date), `DatePickerRange` (two-endpoint range) —
  both operate on JS `Date` values through the date-fns primitives
  `add`, `startOfMonth`, `endOfMonth`, `startOfWeek`, `endOfWeek`,
  `isBefore`, `isEqual`, `isSameDay`, `isWithinInterval`.
  A JS `Date` is embedded as an epoch-day number plus milliseconds within
  the day (`DateT`); the civil (year/month/day) view needed by the
  month-boundary primitives uses the standard proleptic-Gregorian
  conversion in integer arithmetic.
* `DatePickerMonth` — uses only `startOfMonth`, `setYear`, `setMonth`,
  which never cross a day boundary, so it is embedded directly over a
  civil representation (`CDate`).

Event handlers become pure functions from state (plus the event payload)
to a new state together with the value emitted to the `onChange` callback
(`none` when the callback is not invoked).
-/

namespace DP

/-- Milliseconds in one day. -/
def msPerDay : ℤ := 86400000

/-- A JS `Date`: `day` is the local calendar day as days since 1970-01-01,
`ms` the milliseconds elapsed within that day (well-formed values have
`0 ≤ ms < msPerDay`). -/
structure DateT where
  day : ℤ
  ms : ℤ
deriving DecidableEq

/-- `Date.prototype.getTime`: the instant represented by a date. -/
def ts (d : DateT) : ℤ := d.day * msPerDay + d.ms

/-- The representation invariant of a JS `Date` in this embedding. -/
def WF (d : DateT) : Prop := 0 ≤ d.ms ∧ d.ms < msPerDay

instance (d : DateT) : Decidable (WF d) := by
  unfold WF
  infer_instance

/-- date-fns `isBefore`: strict comparison of instants. -/
def isBefore (a b : DateT) : Bool := decide (ts a < ts b)

/-- date-fns `isEqual`: equality of instants (not of calendar days). -/
def isEqual (a b : DateT) : Bool := decide (ts a = ts b)

/-- date-fns `isSameDay`: equality of local calendar days. -/
def isSameDay (a b : DateT) : Bool := decide (a.day = b.day)

/-- `Date.prototype.getDay` on an epoch-day number: day of week,
`0` = Sunday (1970-01-01 was a Thursday, `4`). -/
def dayOfWeek (z : ℤ) : ℤ := (z + 4) % 7

/-- Gregorian leap-year test. -/
def isLeap (y : ℤ) : Bool := (y % 4 == 0 && y % 100 != 0) || y % 400 == 0

/-- Number of days in month `m` (`0` = January … `11` = December) of year
`y`; months outside `0..11` never occur and take the default branch. -/
def daysInMonth (y m : ℤ) : ℤ :=
  if m = 1 then (if isLeap y then 29 else 28)
  else if m = 3 ∨ m = 5 ∨ m = 8 ∨ m = 10 then 30
  else 31

/-- Epoch-day number of the civil date `(y, m, dom)` with `m` 0-based and
`dom` 1-based (proleptic Gregorian, floor-division form of the standard
`days_from_civil` algorithm). -/
def daysFromCivil (y0 m dom : ℤ) : ℤ :=
  let y : ℤ := if m ≤ 1 then y0 - 1 else y0
  let era : ℤ := y / 400
  let yoe : ℤ := y - era * 400
  let mp : ℤ := (m + 10) % 12
  let doy : ℤ := (153 * mp + 2) / 5 + dom - 1
  let doe : ℤ := yoe * 365 + yoe / 4 - yoe / 100 + doy
  era * 146097 + doe - 719468

/-- Civil date `(y, m 0-based, dom 1-based)` of an epoch-day number
(floor-division form of the standard `civil_from_days` algorithm). -/
def civilFromDays (z0 : ℤ) : ℤ × ℤ × ℤ :=
  let z : ℤ := z0 + 719468
  let era : ℤ := z / 146097
  let doe : ℤ := z - era * 146097
  let yoe : ℤ := (doe - doe / 1460 + doe / 36524 - doe / 146096) / 365
  let doy : ℤ := doe - (365 * yoe + yoe / 4 - yoe / 100)
  let mp : ℤ := (5 * doy + 2) / 153
  let dom : ℤ := doy - (153 * mp + 2) / 5 + 1
  let m : ℤ := if mp < 10 then mp + 2 else mp - 10
  let y : ℤ := yoe + era * 400 + (if m ≤ 1 then 1 else 0)
  (y, m, dom)

/-- date-fns `startOfMonth`: first day of the date's month at 00:00:00.000. -/
def startOfMonth (d : DateT) : DateT :=
  let c := civilFromDays d.day
  ⟨daysFromCivil c.1 c.2.1 1, 0⟩

/-- date-fns `endOfMonth`: last day of the date's month at 23:59:59.999. -/
def endOfMonth (d : DateT) : DateT :=
  let c := civilFromDays d.day
  ⟨daysFromCivil c.1 c.2.1 (daysInMonth c.1 c.2.1), msPerDay - 1⟩

/-- date-fns `startOfWeek` with `weekStartsOn: 0`: the Sunday of the
date's week at 00:00:00.000. -/
def startOfWeek (d : DateT) : DateT := ⟨d.day - dayOfWeek d.day, 0⟩

/-- date-fns `endOfWeek` with `weekStartsOn: 0`: the Saturday of the
date's week at 23:59:59.999. -/
def endOfWeek (d : DateT) : DateT := ⟨d.day + (6 - dayOfWeek d.day), msPerDay - 1⟩

/-- date-fns `add(d, { days: n })`. -/
def addDays (d : DateT) (n : ℤ) : DateT := ⟨d.day + n, d.ms⟩

/-- date-fns `isWithinInterval` (inclusive on both ends, by instant). -/
def isWithinInterval (d : DateT) (iv : DateT × DateT) : Bool :=
  decide (ts iv.1 ≤ ts d) && decide (ts d ≤ ts iv.2)

/-- The `while (cur <= end)` day-collection loop shared by both
`monthMatrix` functions (JS compares `Date`s by instant). -/
def dayLoop (cur endD : DateT) : List DateT :=
  if ts cur ≤ ts endD then cur :: dayLoop (addDays cur 1) endD else []
termination_by (ts endD + 1 - ts cur).toNat
decreasing_by
  simp only [addDays, ts, msPerDay] at *
  omega

/-- `monthMatrix` from `DatePickerRange.tsx` (the identical function also
appears in the `DatePickerBase` source): all days from the Sunday of the
week containing the 1st of the anchor's month through the Saturday of the
week containing its last day. -/
def monthMatrix (anchor : DateT) : List DateT :=
  dayLoop (startOfWeek (startOfMonth anchor)) (endOfWeek (endOfMonth anchor))

example : daysFromCivil 1970 0 1 = 0 := by decide
example : civilFromDays 0 = (1970, 0, 1) := by decide
example : dayOfWeek 0 = 4 := by decide
example : daysFromCivil 2024 1 29 = 19782 := by decide
example : civilFromDays 19782 = (2024, 1, 29) := by decide
example : civilFromDays (-1) = (1969, 11, 31) := by decide

/-! ## The range picker (`DatePickerRange.tsx`) -/

/-- A draft range: the `draftRange` pair of the range picker
(`[Date | null, Date | null]`). -/
abbrev Draft := Option DateT × Option DateT

/-- The mutable state of `DatePickerRange` that the claims are about:
`open`, `draftRange`, `hoverDate` and `panelMonth`. -/
structure RangeState where
  isOpen : Bool
  draft : Draft
  hover : Option DateT
  panelMonth : DateT
deriving DecidableEq

/-- The initial state of `DatePickerRange` for an external `value` prop
(`now` is the `new Date()` fallback used when `value[0]` is null). -/
def initialRangeState (value : Draft) (now : DateT) : RangeState :=
  { isOpen := false
    draft := value
    hover := none
    panelMonth := match value.1 with | some v => v | none => now }

/-- `pickDay` from `DatePickerRange.tsx`: the day-click handler. Returns
the new state and the range passed to `onChange` (`none` when the
callback is not invoked). -/
def pickDay (s : RangeState) (date : DateT) : RangeState × Option (DateT × DateT) :=
  match s.draft with
  | (none, _) | (some _, some _) =>
      ({ s with draft := (some date, none), hover := none }, none)
  | (some st, none) =>
      let r := if isBefore date st then (date, st) else (st, date)
      ({ s with draft := (some r.1, some r.2), hover := none, isOpen := false }, some r)

/-- `applyToday` from `DatePickerRange.tsx`: the Today footer shortcut
(`today` stands for `new Date()`). -/
def applyToday (s : RangeState) (today : DateT) : RangeState × Option (DateT × DateT) :=
  ({ s with draft := (some today, some today), hover := none,
            panelMonth := today, isOpen := false }, some (today, today))

/-- The clear-button click handler of `DatePickerRange`: resets the draft
and emits `[null, null]`. -/
def clearRange (s : RangeState) : RangeState × Draft :=
  ({ s with draft := (none, none), hover := none }, (none, none))

/-- `handleOutsideClick` from `DatePickerRange.tsx`: `outside` is the
result of the `!containerRef.current.contains(event.target)` test. The
handler never calls `onChange`, so the emitted value is always `none`. -/
def outsideMouseDown (s : RangeState) (value : Draft) (outside : Bool) :
    RangeState × Option (DateT × DateT) :=
  if s.isOpen && outside then
    ({ s with isOpen := false, draft := value, hover := none }, none)
  else (s, none)

/-- The `useEffect` of `DatePickerRange` that re-syncs internal state when
the external `value` prop changes. -/
def syncFromValue (s : RangeState) (value : Draft) : RangeState :=
  { s with draft := value, hover := none,
           panelMonth := match value.1 with | some v => v | none => s.panelMonth }

/-- `openPanel` from `DatePickerRange.tsx`. -/
def openPanelFn (s : RangeState) : RangeState :=
  { s with isOpen := true, hover := none }

/-- The `previewInterval` computation at the top of `renderGrid`:
normalized confirmed interval when both endpoints are present, hover
interval while only `start` is present and a hover date exists,
otherwise no interval. -/
def previewIntervalOf (draft : Draft) (hover : Option DateT) : Option (DateT × DateT) :=
  match draft with
  | (some st, some en) =>
      some (if isBefore st en || isSameDay st en then (st, en) else (en, st))
  | (some st, none) =>
      match hover with
      | some h => some (if isBefore h st then (h, st) else (st, h))
      | none => none
  | (none, _) => none

/-- `isStart` for a grid cell `d` in `renderGrid`. -/
def cellIsStart (draft : Draft) (d : DateT) : Bool :=
  match draft.1 with
  | some st => isSameDay d st
  | none => false

/-- `isEnd` for a grid cell `d` in `renderGrid`. -/
def cellIsEnd (draft : Draft) (d : DateT) : Bool :=
  match draft.2 with
  | some en => isSameDay d en
  | none => false

/-- `isBetween` for a grid cell `d` in `renderGrid` (the inclusive
`isWithinInterval` test against the active interval). -/
def cellIsBetween (draft : Draft) (hover : Option DateT) (d : DateT) : Bool :=
  match previewIntervalOf draft hover, draft.1 with
  | some iv, some _ => isWithinInterval d iv
  | _, _ => false

/-- `isRange` for a grid cell `d` in `renderGrid` (the claim's
`isRangeMiddle`). -/
def cellIsRangeMiddle (draft : Draft) (hover : Option DateT) (d : DateT) : Bool :=
  cellIsBetween draft hover d && !cellIsStart draft d && !cellIsEnd draft d

/-- The instant-order minimum of two dates. -/
def dmin (a b : DateT) : DateT := if ts a ≤ ts b then a else b

/-- The instant-order maximum of two dates. -/
def dmax (a b : DateT) : DateT := if ts a ≤ ts b then b else a

/-! ## The single-date picker (`DatePickerBase`) -/

/-- The `isSelected` cell classification of `DatePickerBase`:
`!!value && isEqual(d, value)` — note date-fns `isEqual`, an instant
comparison, not `isSameDay`. -/
def baseIsSelected (value : Option DateT) (d : DateT) : Bool :=
  match value with
  | some v => isEqual d v
  | none => false

/-! ## The month picker (`DatePickerMonth.tsx`)

`DatePickerMonth` only uses `startOfMonth`, `setYear` and `setMonth`,
none of which performs day arithmetic, so its dates are embedded directly
in civil form. -/

/-- A JS `Date` in civil view: year, month (0-based), day of month
(1-based), milliseconds within the day. -/
structure CDate where
  y : ℤ
  m : ℤ
  dom : ℤ
  ms : ℤ
deriving DecidableEq

/-- date-fns `startOfMonth` on the civil view. -/
def startOfMonthC (d : CDate) : CDate := ⟨d.y, d.m, 1, 0⟩

/-- date-fns `setYear` (`Date.prototype.setFullYear` keeps month and day
of month; a day of month that does not exist in the target month
overflows into the following month, e.g. Feb 29 → Mar 1). -/
def setYearC (d : CDate) (year : ℤ) : CDate :=
  if daysInMonth year d.m < d.dom then
    if d.m = 11 then ⟨year + 1, 0, d.dom - daysInMonth year d.m, d.ms⟩
    else ⟨year, d.m + 1, d.dom - daysInMonth year d.m, d.ms⟩
  else ⟨year, d.m, d.dom, d.ms⟩

/-- date-fns `setMonth`: sets the month, clamping the day of month to the
length of the target month. -/
def setMonthC (d : CDate) (month : ℤ) : CDate :=
  ⟨d.y, month, min d.dom (daysInMonth d.y month), d.ms⟩

/-- The state of `DatePickerMonth` that the claims are about. -/
structure MonthState where
  isOpen : Bool
  panelYear : ℤ
  hovering : Option ℤ
deriving DecidableEq

/-- The `months` memo of `DatePickerMonth`: the twelve candidate dates
for the displayed year (`now` stands for `new Date()`). -/
def monthsOf (now : CDate) (panelYear : ℤ) : List CDate :=
  (List.range 12).map fun idx : ℕ =>
    setMonthC (setYearC (startOfMonthC now) panelYear) (idx : ℤ)

/-- `selectMonth` from `DatePickerMonth.tsx`: emits
`startOfMonth(monthDate)`, closes the panel, clears the hover index. -/
def selectMonth (s : MonthState) (monthDate : CDate) : MonthState × Option CDate :=
  ({ s with isOpen := false, hovering := none }, some (startOfMonthC monthDate))

/-! ## Reachability of range-picker states

`V` is the set of draft pairs the environment may supply through the
`value` prop; the constructors are exactly the operations that write to
the component's state. -/

/-- States of `DatePickerRange` reachable from an initial `value` through
day clicks, the Today shortcut, the clear button, outside clicks,
`value`-prop re-syncs and opening the panel. -/
inductive Reach (V : Draft → Prop) : RangeState → Prop where
  | init : ∀ value now, V value → Reach V (initialRangeState value now)
  | pick : ∀ s d, Reach V s → Reach V (pickDay s d).1
  | today : ∀ s t, Reach V s → Reach V (applyToday s t).1
  | clearBtn : ∀ s, Reach V s → Reach V (clearRange s).1
  | outside : ∀ s v o, Reach V s → V v → Reach V (outsideMouseDown s v o).1
  | sync : ∀ s v, Reach V s → V v → Reach V (syncFromValue s v)
  | openIt : ∀ s, Reach V s → Reach V (openPanelFn s)

/-! ## Helper views of `monthMatrix` for the grid invariants -/

/-- Epoch day of the first day of the anchor's month, as `monthMatrix`
computes it. -/
def anchorFirstDay (anchor : DateT) : ℤ :=
  daysFromCivil (civilFromDays anchor.day).1 (civilFromDays anchor.day).2.1 1

/-- Length of the anchor's month, as `monthMatrix` computes it. -/
def anchorDim (anchor : DateT) : ℤ :=
  daysInMonth (civilFromDays anchor.day).1 (civilFromDays anchor.day).2.1

/-- The days of the anchor's month (1 through `daysInMonth`), at
midnight, in order. -/
def monthDaysList (anchor : DateT) : List DateT :=
  (List.range (anchorDim anchor).toNat).map
    (fun k : ℕ => ⟨daysFromCivil (civilFromDays anchor.day).1
                 (civilFromDays anchor.day).2.1 ((k : ℤ) + 1), 0⟩)

/-! # Theorems -/

/-- `daysInMonth` always lies between 28 and 31. -/
theorem daysInMonth_bounds (y m : ℤ) : 28 ≤ daysInMonth y m ∧ daysInMonth y m ≤ 31 := by
  unfold daysInMonth
  split_ifs <;> omega

/-- C1: starting from Empty or Complete, clicking day `i` then day `j`
commits the range `(min i j, max i j)` (so the result is independent of
the click order), emits exactly that range to `onChange`, and closes the
panel. -/
theorem pickDay_completes_min_max (s : RangeState) (i j : ℤ)
    (hs : s.draft = (none, none) ∨ ∃ a b, s.draft = (some a, some b)) :
    ((pickDay (pickDay s ⟨i, 0⟩).1 ⟨j, 0⟩).1.draft
        = (some ⟨min i j, 0⟩, some ⟨max i j, 0⟩)) ∧
    ((pickDay (pickDay s ⟨i, 0⟩).1 ⟨j, 0⟩).2
        = some (⟨min i j, 0⟩, ⟨max i j, 0⟩)) ∧
    ((pickDay (pickDay s ⟨i, 0⟩).1 ⟨j, 0⟩).1.isOpen = false) := by
  have h1 : (pickDay s ⟨i, 0⟩).1 = { s with draft := (some ⟨i, 0⟩, none), hover := none } := by
    rcases hs with h | ⟨a, b, h⟩ <;> simp [pickDay, h]
  rw [h1]
  by_cases hij : j < i
  · have hb : isBefore ⟨j, 0⟩ ⟨i, 0⟩ = true := by
      simp only [isBefore, ts, msPerDay, decide_eq_true_eq]
      omega
    simp [pickDay, hb, min_eq_right hij.le, max_eq_left hij.le]
  · have hb : isBefore ⟨j, 0⟩ ⟨i, 0⟩ = false := by
      simp only [isBefore, ts, msPerDay, decide_eq_false_iff_not]
      omega
    push_neg at hij
    simp [pickDay, hb, min_eq_left hij, max_eq_right hij]

/-- C1 witness: clicking day 10 then day 5 from the Empty state commits
`(5, 10)`. -/
theorem pickDay_completes_min_max_witness :
    ((pickDay (pickDay (initialRangeState (none, none) ⟨0, 0⟩) ⟨10, 0⟩).1 ⟨5, 0⟩).1.draft
        = (some ⟨min 10 5, 0⟩, some ⟨max 10 5, 0⟩)) ∧
    ((pickDay (pickDay (initialRangeState (none, none) ⟨0, 0⟩) ⟨10, 0⟩).1 ⟨5, 0⟩).2
        = some (⟨min 10 5, 0⟩, ⟨max 10 5, 0⟩)) ∧
    ((pickDay (pickDay (initialRangeState (none, none) ⟨0, 0⟩) ⟨10, 0⟩).1 ⟨5, 0⟩).1.isOpen
        = false) :=
  pickDay_completes_min_max (initialRangeState (none, none) ⟨0, 0⟩) 10 5 (Or.inl rfl)

/-- C3: from Empty or Complete, a day click yields the Pending state
`(some d, none)` — the prior range is discarded, nothing is emitted, the
hover date is cleared. -/
theorem pickDay_restarts (s : RangeState) (d : DateT)
    (hs : s.draft = (none, none) ∨ ∃ a b, s.draft = (some a, some b)) :
    ((pickDay s d).1.draft = (some d, none)) ∧
    ((pickDay s d).2 = none) ∧
    ((pickDay s d).1.hover = none) := by
  rcases hs with h | ⟨a, b, h⟩ <;> simp [pickDay, h]

/-- C3 witness: a third click after the complete range `(2, 7)` restarts
a fresh Pending selection at the clicked day. -/
theorem pickDay_restarts_witness :
    ((pickDay ⟨true, (some ⟨2, 0⟩, some ⟨7, 0⟩), none, ⟨0, 0⟩⟩ ⟨11, 0⟩).1.draft
        = (some ⟨11, 0⟩, none)) ∧
    ((pickDay ⟨true, (some ⟨2, 0⟩, some ⟨7, 0⟩), none, ⟨0, 0⟩⟩ ⟨11, 0⟩).2 = none) ∧
    ((pickDay ⟨true, (some ⟨2, 0⟩, some ⟨7, 0⟩), none, ⟨0, 0⟩⟩ ⟨11, 0⟩).1.hover = none) :=
  pickDay_restarts ⟨true, (some ⟨2, 0⟩, some ⟨7, 0⟩), none, ⟨0, 0⟩⟩ ⟨11, 0⟩
    (Or.inr ⟨⟨2, 0⟩, ⟨7, 0⟩, rfl⟩)

/-- C4: while Pending with a hover date the active interval is exactly
`(min(start, hover), max(start, hover))`; while Complete (`start ≤ end`)
it is exactly the confirmed `(start, end)` whatever the hover date is;
while Empty there is no interval. -/
theorem preview_interval_spec (st h a b : DateT) (hov : Option DateT)
    (hwa : WF a) (hwb : WF b) (hab : ts a ≤ ts b) :
    (previewIntervalOf (some st, none) (some h) = some (dmin st h, dmax st h)) ∧
    (previewIntervalOf (some a, some b) hov = some (a, b)) ∧
    (previewIntervalOf (none, none) hov = none) := by
  refine ⟨?_, ?_, rfl⟩
  · by_cases hlt : ts h < ts st
    · have hb1 : isBefore h st = true := by
        simp only [isBefore, decide_eq_true_eq]; exact hlt
      simp only [previewIntervalOf, hb1]
      have e1 : dmin st h = h := by unfold dmin; rw [if_neg (by omega)]
      have e2 : dmax st h = st := by unfold dmax; rw [if_neg (by omega)]
      rw [e1, e2]
      simp
    · have hb1 : isBefore h st = false := by
        simp only [isBefore, decide_eq_false_iff_not]; exact hlt
      simp only [previewIntervalOf, hb1]
      have e1 : dmin st h = st := by unfold dmin; rw [if_pos (by omega)]
      have e2 : dmax st h = h := by unfold dmax; rw [if_pos (by omega)]
      rw [e1, e2]
      simp
  · by_cases hlt : ts a < ts b
    · have hb1 : isBefore a b = true := by
        simp only [isBefore, decide_eq_true_eq]; exact hlt
      simp [previewIntervalOf, hb1]
    · have heq : ts a = ts b := by omega
      have hday : a.day = b.day := by
        rcases hwa with ⟨hwa1, hwa2⟩
        rcases hwb with ⟨hwb1, hwb2⟩
        simp only [ts, msPerDay] at heq
        simp only [msPerDay] at hwa2 hwb2
        omega
      have hsd : isSameDay a b = true := by
        simp only [isSameDay, decide_eq_true_eq]; exact hday
      simp [previewIntervalOf, hsd]

/-- C4 witness: Pending `start = day 1` hovering day 5 previews `(1, 5)`;
the Complete range `(2, 7)` highlights `(2, 7)` ignoring the hover; the
Empty state previews nothing. -/
theorem preview_interval_spec_witness :
    (previewIntervalOf (some ⟨1, 0⟩, none) (some ⟨5, 0⟩)
        = some (dmin ⟨1, 0⟩ ⟨5, 0⟩, dmax ⟨1, 0⟩ ⟨5, 0⟩)) ∧
    (previewIntervalOf (some ⟨2, 0⟩, some ⟨7, 0⟩) (some ⟨100, 0⟩) = some (⟨2, 0⟩, ⟨7, 0⟩)) ∧
    (previewIntervalOf (none, none) (some ⟨100, 0⟩) = none) :=
  preview_interval_spec ⟨1, 0⟩ ⟨5, 0⟩ ⟨2, 0⟩ ⟨7, 0⟩ (some ⟨100, 0⟩)
    (by constructor <;> decide) (by constructor <;> decide) (by decide)

/-- C5: `isRangeMiddle` is `isBetween && !isStart && !isEnd`; it is false
at any cell on the same calendar day as `start` or `end`, and true at any
cell strictly between the two endpoints of a Complete draft. -/
theorem cell_classification_spec (draft : Draft) (hov : Option DateT) (d a b : DateT)
    (hwa : WF a) (hwb : WF b) (hwd : WF d) :
    (cellIsRangeMiddle draft hov d
        = (cellIsBetween draft hov d && !cellIsStart draft d && !cellIsEnd draft d)) ∧
    (cellIsStart draft d = true → cellIsRangeMiddle draft hov d = false) ∧
    (cellIsEnd draft d = true → cellIsRangeMiddle draft hov d = false) ∧
    (min a.day b.day < d.day → d.day < max a.day b.day →
      cellIsRangeMiddle (some a, some b) hov d = true) := by
  refine ⟨rfl, ?_, ?_, ?_⟩
  · intro h
    simp [cellIsRangeMiddle, h]
  · intro h
    simp [cellIsRangeMiddle, h]
  · intro h1 h2
    obtain ⟨hwa1, hwa2⟩ := hwa
    obtain ⟨hwb1, hwb2⟩ := hwb
    obtain ⟨hwd1, hwd2⟩ := hwd
    simp only [msPerDay] at hwa2 hwb2 hwd2
    simp only [cellIsRangeMiddle, cellIsBetween, cellIsStart, cellIsEnd, previewIntervalOf]
    split_ifs with hc
    · simp only [isBefore, isSameDay, Bool.or_eq_true, decide_eq_true_eq, ts, msPerDay] at hc
      simp only [isWithinInterval, isSameDay, ts, msPerDay, Bool.and_eq_true,
        Bool.not_eq_true', decide_eq_false_iff_not, decide_eq_true_eq]
      omega
    · simp only [isBefore, isSameDay, Bool.or_eq_true, decide_eq_true_eq, ts, msPerDay,
        not_or, not_lt] at hc
      simp only [isWithinInterval, isSameDay, ts, msPerDay, Bool.and_eq_true,
        Bool.not_eq_true', decide_eq_false_iff_not, decide_eq_true_eq]
      omega

/-- C5 witness: with the Complete draft `(2, 7)`, day 4 is a range middle
and days 2 and 7 are not. -/
theorem cell_classification_spec_witness :
    (cellIsRangeMiddle (some ⟨2, 0⟩, some ⟨7, 0⟩) none ⟨4, 0⟩
        = (cellIsBetween (some ⟨2, 0⟩, some ⟨7, 0⟩) none ⟨4, 0⟩
            && !cellIsStart (some ⟨2, 0⟩, some ⟨7, 0⟩) ⟨4, 0⟩
            && !cellIsEnd (some ⟨2, 0⟩, some ⟨7, 0⟩) ⟨4, 0⟩)) ∧
    (cellIsStart ((some ⟨2, 0⟩, some ⟨7, 0⟩) : Draft) ⟨4, 0⟩ = true →
      cellIsRangeMiddle (some ⟨2, 0⟩, some ⟨7, 0⟩) none ⟨4, 0⟩ = false) ∧
    (cellIsEnd ((some ⟨2, 0⟩, some ⟨7, 0⟩) : Draft) ⟨4, 0⟩ = true →
      cellIsRangeMiddle (some ⟨2, 0⟩, some ⟨7, 0⟩) none ⟨4, 0⟩ = false) ∧
    (min (2 : ℤ) 7 < 4 → (4 : ℤ) < max 2 7 →
      cellIsRangeMiddle (some ⟨2, 0⟩, some ⟨7, 0⟩) none ⟨4, 0⟩ = true) :=
  cell_classification_spec (some ⟨2, 0⟩, some ⟨7, 0⟩) none ⟨4, 0⟩ ⟨2, 0⟩ ⟨7, 0⟩
    (by constructor <;> decide) (by constructor <;> decide) (by constructor <;> decide)

/-- C6 counterexample: the `value`-sync effect stores an inverted
external range verbatim — after accepting `(day 9, day 4)` the draft
still has `start = day 9` after `end = day 4`, so the component's range
state does not satisfy `start ≤ end`. -/
theorem inverted_value_kept_counterexample :
    ((syncFromValue (initialRangeState (none, none) ⟨0, 0⟩)
        (some ⟨9, 0⟩, some ⟨4, 0⟩)).draft = (some ⟨9, 0⟩, some ⟨4, 0⟩)) ∧
    (ts (⟨4, 0⟩ : DateT) < ts (⟨9, 0⟩ : DateT)) := by
  exact ⟨rfl, by decide⟩

/-- C6 amended: an inverted external range (start on a later calendar
day than end) is accepted silently and kept verbatim in the draft state;
the defensive swap happens at render time, where the highlighted interval
comes out with its endpoints in non-decreasing instant order. -/
theorem inverted_value_render_normalizes (s : RangeState) (a b : DateT) (hov : Option DateT)
    (hwa : WF a) (hwb : WF b) (hinv : b.day < a.day) :
    ((syncFromValue s (some a, some b)).draft = (some a, some b)) ∧
    (previewIntervalOf (some a, some b) hov = some (b, a)) ∧
    (ts b ≤ ts a) := by
  obtain ⟨hwa1, hwa2⟩ := hwa
  obtain ⟨hwb1, hwb2⟩ := hwb
  simp only [msPerDay] at hwa2 hwb2
  have hts : ts b < ts a := by
    simp only [ts, msPerDay]
    omega
  refine ⟨rfl, ?_, hts.le⟩
  have hb1 : isBefore a b = false := by
    simp only [isBefore, decide_eq_false_iff_not]
    omega
  have hs1 : isSameDay a b = false := by
    simp only [isSameDay, decide_eq_false_iff_not]
    omega
  simp [previewIntervalOf, hb1, hs1]

/-- C6 amended witness: the inverted value `(day 9, day 4)` is kept in
state but renders as the interval `(day 4, day 9)`. -/
theorem inverted_value_render_normalizes_witness :
    ((syncFromValue (initialRangeState (none, none) ⟨0, 0⟩)
        (some ⟨9, 0⟩, some ⟨4, 0⟩)).draft = (some ⟨9, 0⟩, some ⟨4, 0⟩)) ∧
    (previewIntervalOf (some ⟨9, 0⟩, some ⟨4, 0⟩) none = some (⟨4, 0⟩, ⟨9, 0⟩)) ∧
    (ts (⟨4, 0⟩ : DateT) ≤ ts (⟨9, 0⟩ : DateT)) :=
  inverted_value_render_normalizes (initialRangeState (none, none) ⟨0, 0⟩) ⟨9, 0⟩ ⟨4, 0⟩ none
    (by constructor <;> decide) (by constructor <;> decide) (by decide)

/-- C7: the single-date picker classifies a cell as selected with
date-fns `isEqual` (instant equality), so a stored value carrying a
time-of-day (as the Today footer emits) is on the same calendar day as
the midnight grid cell yet is not classified selected; the range picker's
boundary classification uses `isSameDay` and does match the calendar
day. -/
theorem base_selected_instant_comparison :
    (baseIsSelected (some ⟨0, 1⟩) ⟨0, 0⟩ = false) ∧
    (isSameDay (⟨0, 0⟩ : DateT) ⟨0, 1⟩ = true) ∧
    (cellIsStart ((some ⟨0, 1⟩, none) : Draft) ⟨0, 0⟩ = true) := by
  decide

/-- C8: while the panel is open, a mousedown outside the component closes
the panel, resets the draft to the external `value`, clears the hover
date, and does not invoke `onChange`. -/
theorem outside_click_cancels (s : RangeState) (value : Draft) (ho : s.isOpen = true) :
    ((outsideMouseDown s value true).1.isOpen = false) ∧
    ((outsideMouseDown s value true).1.draft = value) ∧
    ((outsideMouseDown s value true).1.hover = none) ∧
    ((outsideMouseDown s value true).2 = none) := by
  simp [outsideMouseDown, ho]

/-- C8 witness: an outside click on an open panel with Pending draft
`(day 3, none)` rolls back to the committed value `(day 1, day 2)`. -/
theorem outside_click_cancels_witness :
    ((outsideMouseDown ⟨true, (some ⟨3, 0⟩, none), some ⟨5, 0⟩, ⟨0, 0⟩⟩
        (some ⟨1, 0⟩, some ⟨2, 0⟩) true).1.isOpen = false) ∧
    ((outsideMouseDown ⟨true, (some ⟨3, 0⟩, none), some ⟨5, 0⟩, ⟨0, 0⟩⟩
        (some ⟨1, 0⟩, some ⟨2, 0⟩) true).1.draft = (some ⟨1, 0⟩, some ⟨2, 0⟩)) ∧
    ((outsideMouseDown ⟨true, (some ⟨3, 0⟩, none), some ⟨5, 0⟩, ⟨0, 0⟩⟩
        (some ⟨1, 0⟩, some ⟨2, 0⟩) true).1.hover = none) ∧
    ((outsideMouseDown ⟨true, (some ⟨3, 0⟩, none), some ⟨5, 0⟩, ⟨0, 0⟩⟩
        (some ⟨1, 0⟩, some ⟨2, 0⟩) true).2 = none) :=
  outside_click_cancels ⟨true, (some ⟨3, 0⟩, none), some ⟨5, 0⟩, ⟨0, 0⟩⟩
    (some ⟨1, 0⟩, some ⟨2, 0⟩) rfl

/-- C9: `selectMonth` emits the first day of the passed date's month
(whatever day of month it carries) and closes the panel; the twelve
candidate dates for the displayed year are the first days of its months,
ordered January through December. -/
theorem selectMonth_spec (s : MonthState) (d now : CDate) (panelYear : ℤ) :
    ((selectMonth s d).2 = some ⟨d.y, d.m, 1, 0⟩) ∧
    ((selectMonth s d).1.isOpen = false) ∧
    (monthsOf now panelYear
        = (List.range 12).map fun idx : ℕ => ⟨panelYear, (idx : ℤ), 1, 0⟩) := by
  refine ⟨rfl, rfl, ?_⟩
  unfold monthsOf
  refine List.map_congr_left ?_
  intro idx _
  have hY : setYearC (startOfMonthC now) panelYear = ⟨panelYear, now.m, 1, 0⟩ := by
    have hb := daysInMonth_bounds panelYear now.m
    simp only [startOfMonthC, setYearC]
    rw [if_neg (by omega)]
  rw [hY]
  have hb2 := daysInMonth_bounds panelYear (idx : ℤ)
  simp only [setMonthC, CDate.mk.injEq, and_true, true_and]
  omega

/-- The day-collection loop enumerates exactly the days from `cur.day`
through `endD.day`, one-day increments, keeping `cur`'s time of day
(for time-of-day fields in range, lower bound at `cur`, upper strictly
below a full day). -/
theorem dayLoop_eq_range (n : ℕ) (cur endD : DateT)
    (h0 : 0 ≤ cur.ms) (h1 : cur.ms ≤ endD.ms) (h2 : endD.ms < msPerDay)
    (hn : (endD.day + 1 - cur.day).toNat = n) :
    dayLoop cur endD = (List.range n).map fun k : ℕ => ⟨cur.day + (k : ℤ), cur.ms⟩ := by
  induction n generalizing cur with
  | zero =>
      rw [dayLoop, if_neg]
      · rfl
      · simp only [ts, msPerDay] at *
        omega
  | succ n ih =>
      rw [dayLoop, if_pos (by simp only [ts, msPerDay] at *; omega)]
      rw [ih (addDays cur 1) (by simpa [addDays] using h0)
            (by simpa [addDays] using h1) (by simp only [addDays]; omega)]
      rw [List.range_succ_eq_map]
      simp only [List.map_cons, List.map_map]
      congr 1
      · cases cur
        simp
      · refine List.map_congr_left ?_
        intro k _
        simp only [Function.comp_apply, addDays, DateT.mk.injEq]
        constructor
        · push_cast
          ring
        · trivial

/-- `daysFromCivil` is linear in the day-of-month argument. -/
theorem daysFromCivil_shift (y m dom : ℤ) :
    daysFromCivil y m dom = daysFromCivil y m 1 + (dom - 1) := by
  simp only [daysFromCivil]
  ring

/-- C2: for every anchor, `monthMatrix` is the ordered run of consecutive
days (one-day increments, starting at the Sunday-week start of the
month's first day) whose length is a multiple of 7 and at least 28, and
the anchor month's days are a contiguous infix of it. -/
theorem monthMatrix_spec (anchor : DateT) :
    ((monthMatrix anchor).length % 7 = 0) ∧
    (28 ≤ (monthMatrix anchor).length) ∧
    (monthMatrix anchor = (List.range (monthMatrix anchor).length).map
        fun k : ℕ => addDays (startOfWeek (startOfMonth anchor)) (k : ℤ)) ∧
    (∃ pre suf, pre ++ monthDaysList anchor ++ suf = monthMatrix anchor) := by
  simp only [monthDaysList, anchorDim, anchorFirstDay]
  set y := (civilFromDays anchor.day).1 with hy
  set m := (civilFromDays anchor.day).2.1 with hm
  set D := daysInMonth y m with hD
  set F := daysFromCivil y m 1 with hF
  obtain ⟨hd1, hd2⟩ := daysInMonth_bounds y m
  have hshift := daysFromCivil_shift y m D
  set Lr := daysFromCivil y m D with hLr
  set S := F - (F + 4) % 7 with hS
  set E := Lr + (6 - (Lr + 4) % 7) with hE
  have hmmx : monthMatrix anchor
      = (List.range ((E + 1 - S).toNat)).map fun k : ℕ => (⟨S + (k : ℤ), 0⟩ : DateT) := by
    have h := dayLoop_eq_range ((E + 1 - S).toNat) ⟨S, 0⟩ ⟨E, msPerDay - 1⟩
      le_rfl (by show (0 : ℤ) ≤ msPerDay - 1; decide)
      (by show msPerDay - 1 < msPerDay; decide) rfl
    exact h
  refine ⟨?_, ?_, ?_, ?_⟩
  · rw [hmmx]
    simp only [List.length_map, List.length_range]
    omega
  · rw [hmmx]
    simp only [List.length_map, List.length_range]
    omega
  · rw [hmmx]
    simp only [List.length_map, List.length_range]
    rfl
  · have hmid : (List.range D.toNat).map
        (fun k : ℕ => (⟨daysFromCivil y m ((k : ℤ) + 1), 0⟩ : DateT))
        = (List.range D.toNat).map
            (fun k : ℕ => (⟨S + ((((F + 4) % 7).toNat + k : ℕ) : ℤ), 0⟩ : DateT)) := by
      refine List.map_congr_left ?_
      intro k _
      have hk := daysFromCivil_shift y m ((k : ℤ) + 1)
      simp only [DateT.mk.injEq]
      refine ⟨?_, trivial⟩
      push_cast
      omega
    rw [hmid, hmmx]
    have hsplit : (E + 1 - S).toNat
        = ((F + 4) % 7).toNat + (D.toNat + (6 - (Lr + 4) % 7).toNat) := by omega
    rw [hsplit]
    refine ⟨(List.range ((F + 4) % 7).toNat).map
        (fun k : ℕ => (⟨S + (k : ℤ), 0⟩ : DateT)),
      (List.range ((6 - (Lr + 4) % 7).toNat)).map
        (fun k : ℕ =>
          (⟨S + ((((F + 4) % 7).toNat + (D.toNat + k) : ℕ) : ℤ), 0⟩ : DateT)), ?_⟩
    simp only [List.range_add, List.map_append, List.map_map, List.append_assoc]
    rfl

/-- C10: in every range-picker state reachable through day clicks, the
Today shortcut, the clear button, outside clicks and `value` re-syncs —
with every externally supplied value having a start whenever it has an
end — a present end endpoint implies a present start endpoint. -/
theorem reachable_no_lone_end (V : Draft → Prop)
    (hV : ∀ v, V v → v.2.isSome = true → v.1.isSome = true)
    (s : RangeState) (hs : Reach V s) :
    s.draft.2.isSome = true → s.draft.1.isSome = true := by
  induction hs with
  | init value now hv => exact hV _ hv
  | pick s d _ _ =>
      unfold pickDay
      rcases hd : s.draft with ⟨_ | st, _ | en⟩ <;> simp [hd]
  | today s t _ _ => simp [applyToday]
  | clearBtn s _ _ => simp [clearRange]
  | outside s v o _ hv ih =>
      by_cases hc : (s.isOpen && o) = true
      · simpa [outsideMouseDown, hc] using hV _ hv
      · simpa [outsideMouseDown, hc] using ih
  | sync s v _ hv _ => simpa [syncFromValue] using hV _ hv
  | openIt s _ ih => simpa [openPanelFn] using ih

/-- C10 witness: a Complete state reached by two day clicks from the
Empty initial state has a start endpoint. -/
theorem reachable_no_lone_end_witness :
    (pickDay (pickDay (initialRangeState (none, none) ⟨0, 0⟩) ⟨3, 0⟩).1 ⟨8, 0⟩).1.draft.1.isSome
      = true :=
  reachable_no_lone_end (fun v => v = (none, none))
    (by intro v hv; subst hv; simp)
    _
    (Reach.pick _ _ (Reach.pick _ _ (Reach.init _ _ rfl)))
    (by decide)

end DP
